import Mathlib

/-!
# Snippetbox: the snippet data-access layer and the process start-up

A shallow embedding of `pkg/models/mysql/snippets.go` (the three methods of
`SnippetModel`) and of `cmd/web/main.go` (`openDB` and the start-up part of
`main`).

* Go values: a function returning `(T, error)` returns a pair whose second
  component is an `Option GoError` (`none` is the `nil` error); a pointer or a
  slice that may be `nil` is an `Option` (`none` is `nil`, `some []` is the empty
  non-nil slice).
* `database/sql`: the handle `*sql.DB` is a record of its three methods used
  here, acting on the state `σ` of whatever stands behind the handle.  The
  methods of `SnippetModel` are written against an arbitrary handle.
* The database server: `mysql` is the handle of a server holding the table
  `snippets`; it gives the three SQL statements of the source their meaning
  on a list of rows, a clock and an `AUTO_INCREMENT` counter.
* Time: `DATETIME` values and `time.Time` values are whole seconds (`Int`);
  `INTERVAL d DAY` is `d * 86400` seconds.  The type `DATETIME` of the server is
  bounded: what `DATE_ADD` gives where the exact sum leaves its range is the
  server's own affair (`dateAdd`), and is not the exact sum.
* `int` is 64 bits wide, as `int64` is, so `int(id)` keeps the value.
-/

namespace Snippetbox

/-! ## Go errors -/

/-- Go `error` values that are not `nil`.  `sentinel` is a package-level error
variable, told apart by the variable it is; `other` is any other plain error
value; `wrap` is an error whose `Unwrap` gives `inner`. -/
inductive GoError where
  | sentinel (name : String)
  | other (msg : String)
  | wrap (msg : String) (inner : GoError)
  deriving DecidableEq, Repr

/-- The sentinel `sql.ErrNoRows` of `database/sql`. -/
def sql.ErrNoRows : GoError := .sentinel "sql.ErrNoRows"

/-- Modelled from the spec: `models.ErrNoRecord`, declared in `pkg/models`, which
is not among the sources; the spec calls it the domain "no record" sentinel, an
error variable of its own. -/
def models.ErrNoRecord : GoError := .sentinel "models.ErrNoRecord"

/-- Go `errors.Is(err, target)`: `err` or an error in its `Unwrap` chain equals
`target`. -/
def errorsIs : GoError → GoError → Bool
  | .wrap msg inner, target =>
    decide (GoError.wrap msg inner = target) || errorsIs inner target
  | e, target => decide (e = target)

/-! ## The domain entity and the rows of the table -/

/-- Modelled from the spec: `models.Snippet`, declared in `pkg/models`, which is
not among the sources: "identifier, title, content, creation timestamp,
expiration timestamp".  The field names are the ones `Get` and `Latest` scan
into. -/
structure Snippet where
  ID : Int
  Title : String
  Content : String
  Created : Int
  Expires : Int
  deriving DecidableEq, Repr

/-- One row of the result set `SELECT id, title, content, created, expires`. -/
structure Row where
  id : Int
  title : String
  content : String
  created : Int
  expires : Int
  deriving DecidableEq, Repr

/-- The destination list `&s.ID, &s.Title, &s.Content, &s.Created, &s.Expires`
of a successful `Scan` into a fresh `&models.Snippet{}`: the columns are copied
in order. -/
def scan (row : Row) : Snippet :=
  { ID := row.id, Title := row.title, Content := row.content,
    Created := row.created, Expires := row.expires }

/-! ## `database/sql` -/

/-- A placeholder argument of a statement. -/
inductive Arg where
  | str (s : String)
  | int (n : Int)
  deriving DecidableEq, Repr

namespace sql

/-- What `sql.Result` answers to `LastInsertId()`. -/
structure Result where
  LastInsertId : Except GoError Int

/-- Result set `*sql.Rows`: one entry for every time `rows.Next()` answers
`true`, holding what `rows.Scan` then gives (an error or the columns), and
`rows.Err()` once `rows.Next()` has answered `false`. -/
structure Rows where
  scans : List (Except GoError Row)
  Err : Option GoError

/-- Handle `*sql.DB` over a state `σ`.  `QueryRow` stands for
`QueryRow(query, args...).Scan(dest...)`: the error of the scan, or the columns
of the first row. -/
structure DB (σ : Type) where
  Exec : σ → String → List Arg → σ × Except GoError Result
  QueryRow : σ → String → List Arg → σ × Except GoError Row
  Query : σ → String → List Arg → σ × Except GoError Rows

end sql

/-! ## `pkg/models/mysql/snippets.go` -/

/-- The statement of `Insert`. -/
def stmtInsert : String :=
  "INSERT INTO snippets (title, content, created, expires) VALUES(?, ?, UTC_TIMESTAMP(), DATE_ADD(UTC_TIMESTAMP(), INTERVAL ? DAY))"

/-- The statement of `Get`. -/
def stmtGet : String :=
  "SELECT id, title, content, created, expires FROM snippets WHERE expires > UTC_TIMESTAMP() AND id = ?"

/-- The statement of `Latest`. -/
def stmtLatest : String :=
  "SELECT id, title, content, created, expires FROM snippets WHERE expires > UTC_TIMESTAMP() ORDER BY created DESC LIMIT 10"

/-- Type `type SnippetModel struct { DB *sql.DB }`. -/
structure SnippetModel (σ : Type) where
  DB : sql.DB σ

/-- Conversion `int(id)` of an `int64`. -/
def int (id : Int) : Int := id

/-- Method `func (m *SnippetModel) Insert(title, content, expires string) (int, error)`:
the server state after the call and the pair returned. -/
def SnippetModel.Insert {σ : Type} (m : SnippetModel σ) (s : σ)
    (title content expires : String) : σ × (Int × Option GoError) :=
  match m.DB.Exec s stmtInsert [.str title, .str content, .str expires] with
  | (s1, .error err) => (s1, (0, some err))
  | (s1, .ok result) =>
    match result.LastInsertId with
    | .error err => (s1, (0, some err))
    | .ok id => (s1, (int id, none))

/-- Method `func (m *SnippetModel) Get(id int) (*models.Snippet, error)`. -/
def SnippetModel.Get {σ : Type} (m : SnippetModel σ) (s : σ) (id : Int) :
    σ × (Option Snippet × Option GoError) :=
  match m.DB.QueryRow s stmtGet [.int id] with
  | (s1, .error err) =>
    if errorsIs err sql.ErrNoRows then (s1, (none, some models.ErrNoRecord))
    else (s1, (none, some err))
  | (s1, .ok row) => (s1, (some (scan row), none))

/-- The loop `for rows.Next() { ... }` of `Latest`, started with the slice
`snippets` built so far: `error err` is the early `return nil, err` of a failed
`rows.Scan`, `ok snippets` the slice when `rows.Next()` answers `false`. -/
def SnippetModel.Latest.loop :
    List (Except GoError Row) → List Snippet → Except GoError (List Snippet)
  | [], snippets => .ok snippets
  | .error err :: _, _ => .error err
  | .ok row :: rest, snippets => loop rest (snippets ++ [scan row])

/-- Method `func (m *SnippetModel) Latest() ([]*models.Snippet, error)`.  The
deferred `rows.Close()` gives the result set back and returns nothing. -/
def SnippetModel.Latest {σ : Type} (m : SnippetModel σ) (s : σ) :
    σ × (Option (List Snippet) × Option GoError) :=
  match m.DB.Query s stmtLatest [] with
  | (s1, .error err) => (s1, (none, some err))
  | (s1, .ok rows) =>
    match SnippetModel.Latest.loop rows.scans [] with
    | .error err => (s1, (none, some err))
    | .ok snippets =>
      match rows.Err with
      | some err => (s1, (none, some err))
      | none => (s1, (some snippets, none))

/-! ## The database server behind the handle -/

/-- State of the server: the rows of table `snippets` in storage order, the
next value of the `AUTO_INCREMENT` counter of column `id`, and the clock read
by `UTC_TIMESTAMP()`.  The counter lies above every stored `id`, which is how
the server hands out keys. -/
structure Server where
  rows : List Row
  autoInc : Int
  now : Int
  fresh : ∀ r ∈ rows, r.id < autoInc

/-- The same server when its clock reads `t`. -/
def Server.atTime (s : Server) (t : Int) : Server :=
  { rows := s.rows, autoInc := s.autoInc, now := t, fresh := s.fresh }

/-- Seconds of `INTERVAL d DAY`. -/
def days (d : Int) : Int := d * 86400

/-- The row stored by `VALUES(?, ?, UTC_TIMESTAMP(), DATE_ADD(UTC_TIMESTAMP(),
INTERVAL ? DAY))` when the server's `DATE_ADD` gives the `DATETIME` `e`: a fresh
key, the two strings, the clock, and `e`. -/
def Server.newRow (s : Server) (title content : String) (e : Int) : Row :=
  { id := s.autoInc, title := title, content := content,
    created := s.now, expires := e }

/-- Effect of the `INSERT` statement on the server, `e` being what its `DATE_ADD`
gives. -/
def Server.insert (s : Server) (title content : String) (e : Int) : Server :=
  { rows := s.rows ++ [s.newRow title content e]
    autoInc := s.autoInc + 1
    now := s.now
    fresh := by
      intro r hr
      rcases List.mem_append.mp hr with h | h
      · exact lt_trans (s.fresh r h) (lt_add_one _)
      · rw [List.mem_singleton.mp h]
        exact lt_add_one _ }

/-- Filter `WHERE expires > UTC_TIMESTAMP()`. -/
def Server.unexpired (s : Server) (r : Row) : Bool := decide (r.expires > s.now)

/-- Order `ORDER BY created DESC`: `a` may stand before `b`. -/
def createdDesc (a b : Row) : Prop := b.created ≤ a.created

instance : DecidableRel createdDesc := fun a b => inferInstanceAs (Decidable (b.created ≤ a.created))

instance : IsTotal Row createdDesc := ⟨fun a b => le_total b.created a.created⟩

instance : IsTrans Row createdDesc :=
  ⟨fun a b c (hab : b.created ≤ a.created) (hbc : c.created ≤ b.created) => le_trans hbc hab⟩

/-- Rows answered to `... WHERE expires > UTC_TIMESTAMP() AND id = ?`, of which
`QueryRow` keeps the first. -/
def Server.selectGet (s : Server) (id : Int) : Option Row :=
  s.rows.find? (fun r => s.unexpired r && decide (r.id = id))

/-- Rows answered to `... WHERE expires > UTC_TIMESTAMP() ORDER BY created DESC
LIMIT 10`.  Rows created in the same second keep their storage order. -/
def Server.selectLatest (s : Server) : List Row :=
  ((s.rows.filter s.unexpired).insertionSort createdDesc).take 10

/-- Date arithmetic of a server that keeps a `DATETIME` as a signed 64-bit count
of nanoseconds since 1970 and cuts it to whole seconds: the exact sum taken
modulo `2^64` nanoseconds.  It is the exact sum as long as that lies within
`2^63` nanoseconds (some 292 years) of 1970, and wraps around beyond. -/
def wrapDateAdd (now d : Int) : Option Int :=
  some (Int.tdiv ((((now + days d) * 10 ^ 9 + 2 ^ 63) % 2 ^ 64) - 2 ^ 63) (10 ^ 9))

/-- Handle of a server that answers every call.  `interval` is the server's
reading of the string bound to `INTERVAL ? DAY` as a number of days, `none`
when it rejects the string.  `dateAdd now d` is the server's
`DATE_ADD(UTC_TIMESTAMP(), INTERVAL d DAY)` at clock `now` in its bounded type
`DATETIME`: the value it stores, which is `now + days d` only while that is in
range, or `none` when it rejects the statement.  A rejected statement changes
nothing.  `SELECT` leaves the server as it is. -/
def mysql (interval : String → Option Int) (dateAdd : Int → Int → Option Int) :
    sql.DB Server where
  Exec s stmt args :=
    if stmt = stmtInsert then
      match args with
      | [.str title, .str content, .str expires] =>
        match interval expires with
        | some d =>
          match dateAdd s.now d with
          | some e => (s.insert title content e, .ok { LastInsertId := .ok s.autoInc })
          | none => (s, .error (.other "Datetime function: datetime field overflow"))
        | none => (s, .error (.other "Incorrect INTERVAL DAY value"))
      | _ => (s, .error (.other "sql: wrong arguments"))
    else (s, .error (.other "You have an error in your SQL syntax"))
  QueryRow s stmt args :=
    if stmt = stmtGet then
      match args with
      | [.int id] =>
        match s.selectGet id with
        | some row => (s, .ok row)
        | none => (s, .error sql.ErrNoRows)
      | _ => (s, .error (.other "sql: wrong arguments"))
    else (s, .error (.other "You have an error in your SQL syntax"))
  Query s stmt args :=
    if stmt = stmtLatest then
      match args with
      | [] => (s, .ok { scans := s.selectLatest.map .ok, Err := none })
      | _ => (s, .error (.other "sql: wrong arguments"))
    else (s, .error (.other "You have an error in your SQL syntax"))

/-- One call on the model, or the passing of time. -/
inductive Op where
  | Insert (title content expires : String)
  | Get (id : Int)
  | Latest
  | tick (t : Int)

/-- The server after one operation of `m`. -/
def Op.run (m : SnippetModel Server) (s : Server) : Op → Server
  | .Insert title content expires => (m.Insert s title content expires).1
  | .Get id => (m.Get s id).1
  | .Latest => (m.Latest s).1
  | .tick t => s.atTime t

/-- The server after a sequence of operations of `m`. -/
def runOps (m : SnippetModel Server) (s : Server) (ops : List Op) : Server :=
  ops.foldl (Op.run m) s

/-- The rows with key `id` are expired by time `t0`, and `id` is below the
counter: kept by every operation on the server. -/
def DeadKey (id t0 : Int) (s : Server) : Prop :=
  id < s.autoInc ∧ ∀ r ∈ s.rows, r.id = id → r.expires ≤ t0

/-- The first stored row with the key of `row` is `row`, and that key is below
the counter: kept by every operation on the server. -/
def LiveKey (row : Row) (s : Server) : Prop :=
  row.id < s.autoInc ∧ s.rows.find? (fun r => decide (r.id = row.id)) = some row

/-! ## A small server for the concrete cases -/

/-- A reading of `INTERVAL ? DAY` that knows a few decimal strings and rejects
every other string. -/
def sampleInterval : String → Option Int
  | "365" => some 365
  | "7" => some 7
  | "1" => some 1
  | "0" => some 0
  | "-1" => some (-1)
  | "4000000" => some 4000000
  | "-4000000" => some (-4000000)
  | _ => none

/-- A server at time `1000` (seconds) holding three rows: row 1 expired at time
`900`, row 2 expires at `5000`, row 3 expires exactly at `1000`. -/
def sampleServer : Server :=
  { rows := [⟨1, "a", "x", 100, 900⟩, ⟨2, "b", "y", 300, 5000⟩, ⟨3, "c", "z", 200, 1000⟩]
    autoInc := 4
    now := 1000
    fresh := by decide }

/-- A server at time `1000` all of whose rows are expired. -/
def expiredServer : Server :=
  { rows := [⟨1, "a", "x", 100, 900⟩, ⟨2, "b", "y", 200, 1000⟩]
    autoInc := 3
    now := 1000
    fresh := by decide }

/-- A server at time `1000` holding twelve unexpired rows and one expired row
(key 5), stored in an order that is not the order of creation; rows 3 and 9
were created in the same second. -/
def busyServer : Server :=
  { rows := [⟨1, "s1", "", 110, 2000⟩, ⟨2, "s2", "", 50, 2000⟩, ⟨3, "s3", "", 70, 2000⟩,
             ⟨4, "s4", "", 130, 2000⟩, ⟨5, "s5", "", 140, 1000⟩, ⟨6, "s6", "", 10, 2000⟩,
             ⟨7, "s7", "", 90, 2000⟩, ⟨8, "s8", "", 20, 2000⟩, ⟨9, "s9", "", 70, 2000⟩,
             ⟨10, "s10", "", 120, 2000⟩, ⟨11, "s11", "", 30, 2000⟩,
             ⟨12, "s12", "", 100, 2000⟩, ⟨13, "s13", "", 60, 2000⟩]
    autoInc := 14
    now := 1000
    fresh := by decide }

/-- A handle with nothing behind it whose answers depend on the arguments only,
among them every kind of failure: `Exec` fails, or succeeds with or without a
last insert id; `QueryRow` finds a row, or fails with an error wrapping
`sql.ErrNoRows`, or with another error; `Query` answers three rows the second
of which does not scan. -/
def flakyDB : sql.DB Unit where
  Exec s _ args :=
    match args with
    | [_, _, .str "7"] => (s, .ok { LastInsertId := .ok 42 })
    | [_, _, .str "1"] => (s, .ok { LastInsertId := .error (.other "no insert id") })
    | _ => (s, .error (.other "invalid connection"))
  QueryRow s _ args :=
    match args with
    | [.int 1] => (s, .ok ⟨1, "a", "x", 100, 900⟩)
    | [.int 2] => (s, .error (.wrap "row" sql.ErrNoRows))
    | _ => (s, .error (.other "invalid connection"))
  Query s _ _ :=
    (s, .ok { scans := [.ok ⟨1, "a", "x", 100, 900⟩, .error (.other "unsupported Scan"),
                        .ok ⟨2, "b", "y", 300, 5000⟩]
              Err := none })

/-- A handle with nothing behind it whose `Query` answers two rows that scan and
then ends the iteration with an error. -/
def brokenDB : sql.DB Unit where
  Exec s _ _ := (s, .error (.other "invalid connection"))
  QueryRow s _ _ := (s, .error (.other "invalid connection"))
  Query s _ _ :=
    (s, .ok { scans := [.ok ⟨1, "a", "x", 100, 900⟩, .ok ⟨2, "b", "y", 300, 5000⟩]
              Err := some (.other "unexpected EOF") })

/-! ## `cmd/web/main.go` -/

/-- Type `type Config struct`, as filled in by `flag.Parse()`. -/
structure Config where
  Addr : String
  StaticDir : String
  Dsn : String

/-- What `main` calls outside this file: `sql.Open`, `db.Ping`, the
repository's `newTemplateCache` (not among the sources) and
`srv.ListenAndServeTLS`, which only returns with an error.  `H` are the
database handles, `T` the template caches. -/
structure Env (H T : Type) where
  sqlOpen : String → String → Except GoError H
  Ping : H → Option GoError
  newTemplateCache : String → Except GoError T
  ListenAndServeTLS : String → String → String → GoError

/-- Function `func openDB(dsn string) (*sql.DB, error)`. -/
def openDB {H T : Type} (env : Env H T) (dsn : String) : Option H × Option GoError :=
  match env.sqlOpen "mysql" dsn with
  | .error err => (none, some err)
  | .ok db =>
    match env.Ping db with
    | some err => (none, some err)
    | none => (some db, none)

/-- What `main` does that can be seen from outside, in order. -/
inductive Event (H T : Type) where
  | Fatal (err : GoError)
  | application (config : Config) (db : Option H) (templateCache : T)
  | Printf (format : String) (arg : String)
  | ListenAndServeTLS (addr certFile keyFile : String)

/-- Function `func main()` after `flag.Parse()` has filled `config`: the events up to the
end of the process.  `errorLog.Fatal` ends the process (it calls `os.Exit(1)`),
so nothing follows it and the deferred `db.Close()` does not run. -/
def main {H T : Type} (env : Env H T) (config : Config) : List (Event H T) :=
  match openDB env config.Dsn with
  | (_, some err) => [.Fatal err]
  | (db, none) =>
    match env.newTemplateCache "./ui/html/" with
    | .error err => [.Fatal err]
    | .ok templateCache =>
      [.application config db templateCache,
       .Printf "Starting server on %s" config.Addr,
       .ListenAndServeTLS config.Addr "./tls/cert.pem" "./tls/key.pem",
       .Fatal (env.ListenAndServeTLS config.Addr "./tls/cert.pem" "./tls/key.pem")]

/-- An environment in which `sql.Open` succeeds for every data source name, the
ping fails for the data source name `"down"`, and the template cache cannot be
built. -/
def sampleEnv : Env String Unit where
  sqlOpen _ dsn := .ok dsn
  Ping db := if db = "down" then some (.other "connection refused") else none
  newTemplateCache _ := .error (.other "pattern matches no files")
  ListenAndServeTLS _ _ _ := .other "address already in use"

/-! ## The loop of `Latest` -/

theorem loop_all_ok (rs : List Row) (acc : List Snippet) :
    SnippetModel.Latest.loop (rs.map .ok) acc = .ok (acc ++ rs.map scan) := by
  induction rs generalizing acc with
  | nil => simp [SnippetModel.Latest.loop]
  | cons r rs ih => simp [SnippetModel.Latest.loop, ih]

theorem loop_scan_fails (pre : List Row) (e : GoError) (post : List (Except GoError Row))
    (acc : List Snippet) :
    SnippetModel.Latest.loop (pre.map .ok ++ .error e :: post) acc = .error e := by
  induction pre generalizing acc with
  | nil => simp [SnippetModel.Latest.loop]
  | cons r pre ih => simp [SnippetModel.Latest.loop, ih]

theorem loop_ok_inv (scans : List (Except GoError Row)) (acc l : List Snippet)
    (h : SnippetModel.Latest.loop scans acc = .ok l) :
    ∃ rs : List Row, scans = rs.map .ok ∧ l = acc ++ rs.map scan := by
  induction scans generalizing acc with
  | nil =>
    refine ⟨[], rfl, ?_⟩
    simp [SnippetModel.Latest.loop] at h
    simp [h]
  | cons x scans ih =>
    cases x with
    | error e => simp [SnippetModel.Latest.loop] at h
    | ok r =>
      simp only [SnippetModel.Latest.loop] at h
      obtain ⟨rs, hrs, hl⟩ := ih _ h
      exact ⟨r :: rs, by simp [hrs], by simp [hl]⟩

/-! ## The three methods on the server -/

theorem mysql_Insert (interval : String → Option Int) (dateAdd : Int → Int → Option Int)
    (s : Server) (title content expires : String) :
    (SnippetModel.mk (mysql interval dateAdd)).Insert s title content expires =
      match interval expires with
      | some d =>
        match dateAdd s.now d with
        | some e => (s.insert title content e, (s.autoInc, none))
        | none => (s, (0, some (.other "Datetime function: datetime field overflow")))
      | none => (s, (0, some (.other "Incorrect INTERVAL DAY value"))) := by
  unfold SnippetModel.Insert
  rcases h : interval expires with _ | d
  · simp [mysql, h]
  · rcases he : dateAdd s.now d with _ | e <;> simp [mysql, h, he, int]

theorem mysql_Get (interval : String → Option Int) (dateAdd : Int → Int → Option Int)
    (s : Server) (id : Int) :
    (SnippetModel.mk (mysql interval dateAdd)).Get s id =
      match s.selectGet id with
      | some row => (s, (some (scan row), none))
      | none => (s, (none, some models.ErrNoRecord)) := by
  unfold SnippetModel.Get
  cases h : s.selectGet id <;> simp [mysql, h, errorsIs, sql.ErrNoRows]

theorem mysql_Latest (interval : String → Option Int) (dateAdd : Int → Int → Option Int)
    (s : Server) :
    (SnippetModel.mk (mysql interval dateAdd)).Latest s =
      (s, (some (s.selectLatest.map scan), none)) := by
  unfold SnippetModel.Latest
  simp [mysql, loop_all_ok]

theorem selectGet_eq_none (s : Server) (id : Int) :
    s.selectGet id = none ↔ ∀ r ∈ s.rows, r.id = id → r.expires ≤ s.now := by
  simp only [Server.selectGet, List.find?_eq_none, Server.unexpired]
  constructor
  · intro h r hr hid
    have := h r hr
    simp [hid] at this
    exact this
  · intro h r hr
    by_cases hid : r.id = id
    · simpa [hid] using h r hr hid
    · simp [hid]

theorem selectGet_some (s : Server) (id : Int) (row : Row) (h : s.selectGet id = some row) :
    row ∈ s.rows ∧ row.id = id ∧ s.now < row.expires := by
  have h1 := List.find?_some h
  have h2 := List.mem_of_find?_eq_some h
  simp [Server.unexpired] at h1
  exact ⟨h2, h1.2, h1.1⟩

theorem find_live (l : List Row) (row : Row) (now : Int)
    (h : l.find? (fun r => decide (r.id = row.id)) = some row) (hexp : now < row.expires) :
    l.find? (fun r => decide (r.expires > now) && decide (r.id = row.id)) = some row := by
  induction l with
  | nil => simp at h
  | cons a l ih =>
    by_cases hid : a.id = row.id
    · simp only [List.find?_cons, hid, decide_True, Option.some.injEq] at h
      subst h
      simp [List.find?_cons, hexp]
    · simp only [List.find?_cons, hid, decide_False] at h
      simp only [List.find?_cons, hid, decide_False, Bool.and_false]
      exact ih h

theorem selectGet_live (s : Server) (row : Row) (h : LiveKey row s)
    (hexp : s.now < row.expires) : s.selectGet row.id = some row := by
  unfold Server.selectGet Server.unexpired
  exact find_live s.rows row s.now h.2 hexp

theorem liveKey_insert (s : Server) (title content : String) (e : Int) :
    LiveKey (s.newRow title content e) (s.insert title content e) := by
  refine ⟨lt_add_one _, ?_⟩
  have hold : s.rows.find? (fun r => decide (r.id = s.autoInc)) = none := by
    rw [List.find?_eq_none]
    intro r hr
    have := s.fresh r hr
    simp
    omega
  simp [Server.insert, Server.newRow, List.find?_append, hold]

theorem run_Insert (interval : String → Option Int) (dateAdd : Int → Int → Option Int)
    (s : Server) (title content expires : String) :
    Op.run ⟨mysql interval dateAdd⟩ s (.Insert title content expires) = s ∨
    ∃ e, Op.run ⟨mysql interval dateAdd⟩ s (.Insert title content expires)
      = s.insert title content e := by
  simp only [Op.run, mysql_Insert]
  rcases interval expires with _ | d
  · exact Or.inl rfl
  · rcases hd : dateAdd s.now d with _ | e
    · left
      simp only [hd]
    · right
      exact ⟨e, by simp only [hd]⟩

theorem liveKey_run (interval : String → Option Int) (dateAdd : Int → Int → Option Int)
    (row : Row) (s : Server) (op : Op) (h : LiveKey row s) :
    LiveKey row (Op.run ⟨mysql interval dateAdd⟩ s op) := by
  cases op with
  | Insert title content expires =>
    rcases run_Insert interval dateAdd s title content expires with hr | ⟨e, hr⟩
    · rw [hr]
      exact h
    · rw [hr]
      refine ⟨lt_trans h.1 (lt_add_one _), ?_⟩
      simp [Server.insert, List.find?_append, h.2]
  | Get id1 =>
    simp only [Op.run, mysql_Get]
    cases s.selectGet id1 <;> exact h
  | Latest =>
    simp only [Op.run, mysql_Latest]
    exact h
  | tick t => exact h

theorem liveKey_runOps (interval : String → Option Int) (dateAdd : Int → Int → Option Int)
    (row : Row) (ops : List Op) (s : Server) (h : LiveKey row s) :
    LiveKey row (runOps ⟨mysql interval dateAdd⟩ s ops) := by
  induction ops generalizing s with
  | nil => exact h
  | cons op ops ih => exact ih _ (liveKey_run interval dateAdd row s op h)

theorem wrapDateAdd_exact (now d : Int) (hlo : -(2 ^ 63) ≤ (now + days d) * 10 ^ 9)
    (hhi : (now + days d) * 10 ^ 9 < 2 ^ 63) : wrapDateAdd now d = some (now + days d) := by
  unfold wrapDateAdd
  rw [Int.emod_eq_of_lt (by omega) (by omega)]
  simp only [add_sub_cancel_right]
  rw [Int.mul_tdiv_cancel _ (by norm_num)]

theorem rows_prefix_run (interval : String → Option Int) (dateAdd : Int → Int → Option Int)
    (s : Server) (op : Op) :
    s.rows <+: (Op.run ⟨mysql interval dateAdd⟩ s op).rows := by
  cases op with
  | Insert title content expires =>
    rcases run_Insert interval dateAdd s title content expires with hr | ⟨e, hr⟩
    · rw [hr]
    · rw [hr]
      exact List.prefix_append _ _
  | Get id =>
    simp only [Op.run, mysql_Get]
    cases s.selectGet id <;> exact List.prefix_refl _
  | Latest =>
    simp only [Op.run, mysql_Latest]
    exact List.prefix_refl _
  | tick t => exact List.prefix_refl _

theorem deadKey_run (interval : String → Option Int) (dateAdd : Int → Int → Option Int)
    (id t0 : Int) (s : Server) (op : Op)
    (h : DeadKey id t0 s) : DeadKey id t0 (Op.run ⟨mysql interval dateAdd⟩ s op) := by
  cases op with
  | Insert title content expires =>
    rcases run_Insert interval dateAdd s title content expires with hrun | ⟨e, hrun⟩
    · rw [hrun]
      exact h
    · rw [hrun]
      refine ⟨lt_trans h.1 (lt_add_one _), ?_⟩
      intro r hr hid
      rcases List.mem_append.mp hr with hr | hr
      · exact h.2 r hr hid
      · rw [List.mem_singleton.mp hr] at hid
        have := h.1
        simp [Server.newRow] at hid
        omega
  | Get id1 =>
    simp only [Op.run, mysql_Get]
    cases s.selectGet id1 <;> exact h
  | Latest =>
    simp only [Op.run, mysql_Latest]
    exact h
  | tick t => exact h

theorem deadKey_runOps (interval : String → Option Int) (dateAdd : Int → Int → Option Int)
    (id t0 : Int) (ops : List Op) (s : Server) (h : DeadKey id t0 s) :
    DeadKey id t0 (runOps ⟨mysql interval dateAdd⟩ s ops) := by
  induction ops generalizing s with
  | nil => exact h
  | cons op ops ih => exact ih _ (deadKey_run interval dateAdd id t0 s op h)

theorem mem_selectLatest (s : Server) (r : Row) (h : r ∈ s.selectLatest) :
    r ∈ s.rows ∧ s.now < r.expires := by
  have h1 := List.mem_of_mem_take h
  rw [List.mem_insertionSort, List.mem_filter] at h1
  simpa [Server.unexpired] using h1

/-! ## Error handling of the three methods, over any handle -/

/-- C3.  `Get` translates exactly one error.  Whatever stands behind the handle:
when the query/scan gives an error `e` that is or wraps `sql.ErrNoRows`, `Get`
returns `(nil, models.ErrNoRecord)`; when it gives any other error `e`, `Get`
returns `(nil, e)`; and the snippet returned is non-nil exactly when the error
returned is `nil`. -/
theorem get_translates_one_error {σ : Type} (m : SnippetModel σ) (s : σ) (id : Int) :
    (∀ e, (m.DB.QueryRow s stmtGet [.int id]).2 = .error e → errorsIs e sql.ErrNoRows = true →
      (m.Get s id).2 = (none, some models.ErrNoRecord)) ∧
    (∀ e, (m.DB.QueryRow s stmtGet [.int id]).2 = .error e → errorsIs e sql.ErrNoRows = false →
      (m.Get s id).2 = (none, some e)) ∧
    ((m.Get s id).2.1 ≠ none ↔ (m.Get s id).2.2 = none) := by
  unfold SnippetModel.Get
  rcases hq : m.DB.QueryRow s stmtGet [.int id] with ⟨s1, e | row⟩
  · refine ⟨?_, ?_, ?_⟩
    · intro e1 he1 his
      cases he1
      simp [his]
    · intro e1 he1 his
      cases he1
      simp [his]
    · by_cases his : errorsIs e sql.ErrNoRows = true <;> simp [his]
  · refine ⟨?_, ?_, ?_⟩
    · intro e1 he1
      cases he1
    · intro e1 he1
      cases he1
    · simp

/-- C6.  `Insert` passes driver errors through.  Whatever stands behind the
handle, the statement is executed once (the state after `Insert` is the state
after that one `Exec`); when `Exec` fails with `e`, or `LastInsertId` fails with
`e`, `Insert` returns `(0, e)`; otherwise it returns `(int(id), nil)` for the
`id` that `LastInsertId` reports. -/
theorem insert_passes_driver_errors {σ : Type} (m : SnippetModel σ) (s : σ)
    (title content expires : String) :
    (m.Insert s title content expires).1 =
      (m.DB.Exec s stmtInsert [.str title, .str content, .str expires]).1 ∧
    (∀ e, (m.DB.Exec s stmtInsert [.str title, .str content, .str expires]).2 = .error e →
      (m.Insert s title content expires).2 = (0, some e)) ∧
    (∀ result e,
      (m.DB.Exec s stmtInsert [.str title, .str content, .str expires]).2 = .ok result →
      result.LastInsertId = .error e →
      (m.Insert s title content expires).2 = (0, some e)) ∧
    (∀ result id,
      (m.DB.Exec s stmtInsert [.str title, .str content, .str expires]).2 = .ok result →
      result.LastInsertId = .ok id →
      (m.Insert s title content expires).2 = (int id, none)) := by
  unfold SnippetModel.Insert
  rcases hq : m.DB.Exec s stmtInsert [.str title, .str content, .str expires]
    with ⟨s1, e | result⟩
  · refine ⟨rfl, ?_, ?_, ?_⟩
    · intro e1 he1
      cases he1
      rfl
    · intro r e1 hr
      cases hr
    · intro r i hr
      cases hr
  · refine ⟨?_, ?_, ?_, ?_⟩
    · rcases hl : result.LastInsertId with e | i <;> simp [hl]
    · intro e1 he1
      cases he1
    · intro r e1 hr hl
      cases hr
      simp [hl]
    · intro r i hr hl
      cases hr
      simp [hl]

/-- C8.  `Latest` is all-or-nothing on error.  Whatever stands behind the handle:
when the query fails with `e`, when the scan of some row fails with `e` after
any number `pre` of rows scanned well (none, some or all but the last) and
whatever would follow, and when all rows scan well and `rows.Err()` is `e`,
`Latest` returns the nil slice and `e`.  A slice is returned only when every
row scanned well and `rows.Err()` is nil, and it then holds all the rows. -/
theorem latest_all_or_nothing {σ : Type} (m : SnippetModel σ) (s : σ) :
    (∀ e, (m.DB.Query s stmtLatest []).2 = .error e → (m.Latest s).2 = (none, some e)) ∧
    (∀ (rows : sql.Rows) (pre : List Row) (e : GoError) (post : List (Except GoError Row)),
      (m.DB.Query s stmtLatest []).2 = .ok rows →
      rows.scans = pre.map .ok ++ .error e :: post →
      (m.Latest s).2 = (none, some e)) ∧
    (∀ (rows : sql.Rows) (rs : List Row) (e : GoError),
      (m.DB.Query s stmtLatest []).2 = .ok rows →
      rows.scans = rs.map .ok → rows.Err = some e →
      (m.Latest s).2 = (none, some e)) ∧
    (∀ snippets, (m.Latest s).2.1 = some snippets →
      ∃ (rows : sql.Rows) (rs : List Row),
        (m.DB.Query s stmtLatest []).2 = .ok rows ∧ rows.scans = rs.map .ok ∧
        rows.Err = none ∧ snippets = rs.map scan ∧ (m.Latest s).2.2 = none) := by
  unfold SnippetModel.Latest
  rcases hq : m.DB.Query s stmtLatest [] with ⟨s1, e | rows⟩
  · refine ⟨?_, ?_, ?_, ?_⟩
    · intro e1 he1
      cases he1
      rfl
    · intro rows pre e1 post hr
      cases hr
    · intro rows rs e1 hr
      cases hr
    · intro l hl
      simp at hl
  · refine ⟨?_, ?_, ?_, ?_⟩
    · intro e1 he1
      cases he1
    · intro rows1 pre e1 post hr hs
      cases hr
      simp [hs, loop_scan_fails]
    · intro rows1 rs e1 hr hs he
      cases hr
      simp [hs, he, loop_all_ok]
    · intro l hl
      rcases hloop : SnippetModel.Latest.loop rows.scans [] with e1 | l1
      · simp [hloop] at hl
      · rcases herr : rows.Err with _ | e1
        · simp [hloop, herr] at hl
          obtain ⟨rs, hrs, hl1⟩ := loop_ok_inv _ _ _ hloop
          refine ⟨rows, rs, rfl, hrs, herr, ?_, ?_⟩
          · rw [← hl, hl1]
            simp
          · simp [hloop, herr]
        · simp [hloop, herr] at hl

/-! ## Start-up -/

/-- C7.  Start-up failures are fatal.  `openDB` returns a handle `db` with a nil
error exactly when `sql.Open` gave `db` and `db.Ping()` succeeded; when
`sql.Open` fails with `e`, or the ping fails with `e`, it returns `(nil, e)`.
In `main`, when `openDB` returns an error `e`, or `openDB` succeeds and
`newTemplateCache` returns an error `e`, the whole run is the one event
`errorLog.Fatal(e)`: the application struct is not built and the server does
not listen. -/
theorem startup_failures_fatal {H T : Type} (env : Env H T) (config : Config) (dsn : String) :
    (∀ db, openDB env dsn = (some db, none) ↔
      (env.sqlOpen "mysql" dsn = .ok db ∧ env.Ping db = none)) ∧
    (((openDB env dsn).1 ≠ none ∧ (openDB env dsn).2 = none) ↔
      ∃ db, env.sqlOpen "mysql" dsn = .ok db ∧ env.Ping db = none) ∧
    (∀ e, env.sqlOpen "mysql" dsn = .error e → openDB env dsn = (none, some e)) ∧
    (∀ db e, env.sqlOpen "mysql" dsn = .ok db → env.Ping db = some e →
      openDB env dsn = (none, some e)) ∧
    (∀ e, (openDB env config.Dsn).2 = some e → main env config = [.Fatal e]) ∧
    (∀ e, (openDB env config.Dsn).2 = none →
      env.newTemplateCache "./ui/html/" = .error e → main env config = [.Fatal e]) := by
  refine ⟨?_, ?_, ?_, ?_, ?_, ?_⟩
  · intro db
    unfold openDB
    rcases ho : env.sqlOpen "mysql" dsn with e | db1
    · simp
    · rcases hp : env.Ping db1 with _ | e
      · simp only [hp, Prod.mk.injEq, Option.some.injEq, and_true, Except.ok.injEq]
        constructor
        · intro h
          subst h
          exact ⟨rfl, hp⟩
        · intro h
          exact h.1
      · simp only [hp, Prod.mk.injEq, Except.ok.injEq]
        constructor
        · intro h
          cases h.1
        · intro h
          rw [← h.1, hp] at h
          cases h.2
  · unfold openDB
    rcases ho : env.sqlOpen "mysql" dsn with e | db1
    · simp
    · rcases hp : env.Ping db1 with _ | e
      · simp [hp]
      · simp [hp]
  · intro e he
    simp [openDB, he]
  · intro db e hdb he
    simp [openDB, hdb, he]
  · intro e he
    unfold main
    rcases ho : openDB env config.Dsn with ⟨db, _ | e1⟩
    · simp [ho] at he
    · simp [ho] at he
      simp [he]
  · intro e he ht
    unfold main
    rcases ho : openDB env config.Dsn with ⟨db, _ | e1⟩
    · simp [ht]
    · simp [ho] at he

/-! ## The three methods against the table -/

/-- C1, amended.  Insert-then-Get round trip where the date arithmetic of the
server does not overflow.  On every server state `s` (clock `s.now`), for every
title, content and interval string that the server reads as a positive number
of days `d` such that its `DATE_ADD` gives exactly `s.now` plus `d` days: if
`Insert` succeeds and returns `id`, leaving the server in state `s1`, then after
any further calls of `Insert`, `Get` and `Latest` and changes of the clock, at
every later time before `s.now` plus `d` days, `Get(id)` returns a nil error and
the snippet with ID `id`, the inserted title and content, Created `s.now` and
Expires `s.now` plus `d` days. -/
theorem insert_get_round_trip (interval : String → Option Int)
    (dateAdd : Int → Int → Option Int) (s s1 : Server)
    (title content expires : String) (d id : Int) (ops : List Op)
    (hread : interval expires = some d) (_hd : 0 < d)
    (hexact : dateAdd s.now d = some (s.now + days d))
    (hins : (SnippetModel.mk (mysql interval dateAdd)).Insert s title content expires
      = (s1, (id, none)))
    (_hlater : s.now ≤ (runOps ⟨mysql interval dateAdd⟩ s1 ops).now)
    (hbefore : (runOps ⟨mysql interval dateAdd⟩ s1 ops).now < s.now + days d) :
    ((SnippetModel.mk (mysql interval dateAdd)).Get
        (runOps ⟨mysql interval dateAdd⟩ s1 ops) id).2 =
      (some { ID := id, Title := title, Content := content,
              Created := s.now, Expires := s.now + days d }, none) := by
  rw [mysql_Insert] at hins
  simp only [hread, hexact, Prod.mk.injEq, and_true] at hins
  obtain ⟨hs1, hid⟩ := hins
  subst hs1
  subst hid
  have hlive := liveKey_runOps interval dateAdd _ ops _
    (liveKey_insert s title content (s.now + days d))
  have hsel := selectGet_live _ _ hlive hbefore
  simp only [Server.newRow] at hsel
  rw [mysql_Get, hsel]
  rfl

/-- C2.  Get after expiry returns not-found.  On every server state and for
every `id`: when every row with that `id` has `expires <= now` (the one row
with that key is expired, or there is no such row), `Get(id)` returns a nil
snippet and `models.ErrNoRecord`; and `Get(id)` returns a nil error exactly when
a row with that `id` and `expires > now` is stored. -/
theorem get_after_expiry (interval : String → Option Int)
    (dateAdd : Int → Int → Option Int) (s : Server) (id : Int) :
    ((∀ r ∈ s.rows, r.id = id → r.expires ≤ s.now) →
      ((SnippetModel.mk (mysql interval dateAdd)).Get s id).2 = (none, some models.ErrNoRecord)) ∧
    (((SnippetModel.mk (mysql interval dateAdd)).Get s id).2.2 = none ↔
      ∃ r ∈ s.rows, r.id = id ∧ s.now < r.expires) := by
  rw [mysql_Get]
  constructor
  · intro h
    rw [(selectGet_eq_none s id).mpr h]
  · rcases hsel : s.selectGet id with _ | row
    · have hn := (selectGet_eq_none s id).mp hsel
      simp only [false_iff, not_exists, not_and, not_lt]
      constructor
      · intro h
        cases h
      · rintro ⟨r, hr, hid, hlt⟩
        have := hn r hr hid
        omega
    · have hrow := selectGet_some s id row hsel
      simp only [true_iff]
      exact ⟨row, hrow⟩

/-- C5.  No update or delete path.  On every server state, `Get` and `Latest`
leave the server as it is; an `Insert` that succeeds with `id` leaves the old
rows as they are, in place, followed by exactly one new row, whose key is `id`;
and after any sequence of `Insert`, `Get` and `Latest` calls, at whatever
times, the rows the table started with are still its first rows. -/
theorem no_update_or_delete (interval : String → Option Int)
    (dateAdd : Int → Int → Option Int) (s : Server) :
    (∀ id, ((SnippetModel.mk (mysql interval dateAdd)).Get s id).1 = s) ∧
    ((SnippetModel.mk (mysql interval dateAdd)).Latest s).1 = s ∧
    (∀ title content expires id,
      ((SnippetModel.mk (mysql interval dateAdd)).Insert s title content expires).2 = (id, none) →
      ∃ row, row.id = id ∧
        ((SnippetModel.mk (mysql interval dateAdd)).Insert s title content expires).1.rows
          = s.rows ++ [row]) ∧
    (∀ ops, s.rows <+: (runOps ⟨mysql interval dateAdd⟩ s ops).rows) := by
  refine ⟨?_, ?_, ?_, ?_⟩
  · intro id
    rw [mysql_Get]
    cases s.selectGet id <;> rfl
  · rw [mysql_Latest]
  · intro title content expires id
    rw [mysql_Insert]
    rcases interval expires with _ | d
    · simp
    · rcases hd : dateAdd s.now d with _ | e
      · simp [hd]
      · simp only [hd, Prod.mk.injEq, and_true]
        intro hid
        exact ⟨s.newRow title content e, hid, rfl⟩
  · intro ops
    induction ops generalizing s with
    | nil => exact List.prefix_refl _
    | cons op ops ih =>
      exact (rows_prefix_run interval dateAdd s op).trans (ih _)

/-- C9.  Latest on no visible snippets.  On every server state in which no row
has `expires > now` (the empty table among them), `Latest` returns the empty
non-nil slice and a nil error, not `models.ErrNoRecord`. -/
theorem latest_no_visible (interval : String → Option Int)
    (dateAdd : Int → Int → Option Int) (s : Server)
    (h : ∀ r ∈ s.rows, r.expires ≤ s.now) :
    ((SnippetModel.mk (mysql interval dateAdd)).Latest s).2 = (some [], none) ∧
    ((SnippetModel.mk (mysql interval dateAdd)).Latest s).2.2 ≠ some models.ErrNoRecord := by
  rw [mysql_Latest]
  have hf : s.rows.filter s.unexpired = [] := by
    rw [List.filter_eq_nil_iff]
    intro r hr
    have := h r hr
    simp [Server.unexpired]
    omega
  simp [Server.selectLatest, hf]

/-- C10, amended.  Insert does not validate the expiry interval.  On every server
state, for every title, content and interval string that the server reads as a
number of days `d <= 0` such that its `DATE_ADD` gives exactly the clock plus
`d` days: `Insert` succeeds and returns an `id` that no stored row had; the row
it stores under `id` has `expires <= created`; and from then on, after any
further calls and whenever the clock is not before the insertion time,
`Get(id)` returns a nil snippet and `models.ErrNoRecord` and no snippet
returned by `Latest` has that ID. -/
theorem insert_nonpositive_days (interval : String → Option Int)
    (dateAdd : Int → Int → Option Int) (s : Server)
    (title content expires : String) (d : Int)
    (hread : interval expires = some d) (hd : d ≤ 0)
    (hexact : dateAdd s.now d = some (s.now + days d)) :
    ∃ s1 id row,
      (SnippetModel.mk (mysql interval dateAdd)).Insert s title content expires
        = (s1, (id, none)) ∧
      (∀ r ∈ s.rows, r.id ≠ id) ∧
      s1.rows = s.rows ++ [row] ∧ row.id = id ∧ row.expires ≤ row.created ∧
      ∀ ops, s.now ≤ (runOps ⟨mysql interval dateAdd⟩ s1 ops).now →
        ((SnippetModel.mk (mysql interval dateAdd)).Get
            (runOps ⟨mysql interval dateAdd⟩ s1 ops) id).2
          = (none, some models.ErrNoRecord) ∧
        ∀ snippets,
          ((SnippetModel.mk (mysql interval dateAdd)).Latest
              (runOps ⟨mysql interval dateAdd⟩ s1 ops)).2.1
            = some snippets →
          ∀ x ∈ snippets, x.ID ≠ id := by
  have hdays : days d ≤ 0 := by
    unfold days
    omega
  refine ⟨s.insert title content (s.now + days d), s.autoInc,
    s.newRow title content (s.now + days d), ?_, ?_, rfl, rfl, ?_, ?_⟩
  · rw [mysql_Insert]
    simp only [hread, hexact]
  · intro r hr
    exact ne_of_lt (s.fresh r hr)
  · simp only [Server.newRow]
    omega
  · intro ops hnow
    have hdead : DeadKey s.autoInc s.now (s.insert title content (s.now + days d)) := by
      refine ⟨lt_add_one _, ?_⟩
      intro r hr hid
      rcases List.mem_append.mp hr with hr | hr
      · exact absurd hid (ne_of_lt (s.fresh r hr))
      · rw [List.mem_singleton.mp hr]
        simp only [Server.newRow]
        omega
    have hfin := deadKey_runOps interval dateAdd _ _ ops _ hdead
    constructor
    · rw [mysql_Get, (selectGet_eq_none _ _).mpr]
      intro r hr hid
      exact le_trans (hfin.2 r hr hid) hnow
    · intro snippets hsn x hx
      rw [mysql_Latest] at hsn
      simp only [Option.some.injEq] at hsn
      subst hsn
      obtain ⟨r, hr, rfl⟩ := List.mem_map.mp hx
      have hm := mem_selectLatest _ r hr
      intro hid
      have := hfin.2 r hm.1 hid
      omega

/-- C4.  `Latest` returns the latest ten unexpired snippets.  On every server
state the query succeeds and `Latest` returns a nil error and a slice
`snippets` such that: (a) it has at most 10 elements; (b) each of its elements
is the scan of a stored row with `expires > now`; (c) it is ordered by Created,
non-increasing; (d) it is the first `min(10, n)` rows of `sorted`, a
rearrangement of the `n` unexpired rows ordered by `created` descending; and no
unexpired row left out of it was created strictly later than a snippet in
it. -/
theorem latest_ten_unexpired (interval : String → Option Int)
    (dateAdd : Int → Int → Option Int) (s : Server) :
    ∃ (snippets : List Snippet) (sorted : List Row),
      ((SnippetModel.mk (mysql interval dateAdd)).Latest s).2 = (some snippets, none) ∧
      snippets.length ≤ 10 ∧
      (∀ x ∈ snippets, ∃ r ∈ s.rows, s.now < r.expires ∧ x = scan r) ∧
      snippets.Pairwise (fun a b => b.Created ≤ a.Created) ∧
      sorted.Perm (s.rows.filter (fun r => decide (s.now < r.expires))) ∧
      sorted.Pairwise (fun a b => b.created ≤ a.created) ∧
      snippets = (sorted.take
        (min 10 (s.rows.filter (fun r => decide (s.now < r.expires))).length)).map scan ∧
      (∀ r ∈ s.rows, s.now < r.expires → scan r ∉ snippets →
        ∀ x ∈ snippets, r.created ≤ x.Created) := by
  have hfil : (s.rows.filter (fun r => decide (s.now < r.expires))) = s.rows.filter s.unexpired := by
    congr 1
  rw [hfil]
  have hperm := List.perm_insertionSort createdDesc (s.rows.filter s.unexpired)
  have hsorted : ((s.rows.filter s.unexpired).insertionSort createdDesc).Pairwise createdDesc :=
    List.sorted_insertionSort createdDesc (s.rows.filter s.unexpired)
  refine ⟨s.selectLatest.map scan, (s.rows.filter s.unexpired).insertionSort createdDesc,
    ?_, ?_, ?_, ?_, hperm, hsorted, ?_, ?_⟩
  · rw [mysql_Latest]
  · rw [List.length_map]
    exact List.length_take_le _ _
  · intro x hx
    obtain ⟨r, hr, rfl⟩ := List.mem_map.mp hx
    have hm := mem_selectLatest s r hr
    exact ⟨r, hm.1, hm.2, rfl⟩
  · apply List.Pairwise.map scan (R := createdDesc)
    · intro a b hab
      exact hab
    · exact hsorted.sublist (List.take_sublist _ _)
  · rw [← hperm.length_eq, Server.selectLatest]
    congr 1
    rcases le_total 10 ((s.rows.filter s.unexpired).insertionSort createdDesc).length with h | h
    · rw [min_eq_left h]
    · rw [min_eq_right h, List.take_of_length_le h, List.take_of_length_le (le_refl _)]
  · intro r hr hexp hnot x hx
    obtain ⟨r1, hr1, rfl⟩ := List.mem_map.mp hx
    have hmem : r ∈ (s.rows.filter s.unexpired).insertionSort createdDesc := by
      rw [List.mem_insertionSort, List.mem_filter]
      exact ⟨hr, by simpa [Server.unexpired] using hexp⟩
    rw [← List.take_append_drop 10 ((s.rows.filter s.unexpired).insertionSort createdDesc)]
      at hmem hsorted
    rcases List.mem_append.mp hmem with h | h
    · exact absurd (List.mem_map_of_mem scan h) hnot
    · exact (List.pairwise_append.mp hsorted).2.2 r1 hr1 r h

/-! ## Concrete cases -/

/-- C1 does not hold where the date arithmetic overflows.  On the sample
server (clock `1000`) with the wrapping date arithmetic, an insert for
`4000000` days succeeds with key `4` and stores the expiry `-4888136400`, so
`Get(4)` at the very time of the insert, which is before `1000` plus `4000000`
days, returns `models.ErrNoRecord`. -/
theorem insert_get_round_trip_counterexample :
    sampleInterval "4000000" = some 4000000 ∧ (0 : Int) < 4000000 ∧
    (SnippetModel.mk (mysql sampleInterval wrapDateAdd)).Insert sampleServer
        "title" "content" "4000000"
      = (sampleServer.insert "title" "content" (-4888136400), (4, none)) ∧
    sampleServer.now ≤ 1000 ∧ (1000 : Int) < sampleServer.now + days 4000000 ∧
    ((SnippetModel.mk (mysql sampleInterval wrapDateAdd)).Get
        ((sampleServer.insert "title" "content" (-4888136400)).atTime 1000) 4).2
      = (none, some models.ErrNoRecord) ∧
    ((SnippetModel.mk (mysql sampleInterval wrapDateAdd)).Get
        ((sampleServer.insert "title" "content" (-4888136400)).atTime 1000) 4).2
      ≠ (some { ID := 4, Title := "title", Content := "content",
                Created := 1000, Expires := 1000 + days 4000000 }, none) := by
  have hadd : wrapDateAdd sampleServer.now 4000000 = some (-4888136400) := by decide
  refine ⟨rfl, by decide, ?_, by decide, by decide, ?_, ?_⟩
  · rw [mysql_Insert]
    simp only [sampleInterval, hadd]
    rfl
  · rw [mysql_Get]
    decide
  · rw [mysql_Get]
    decide

/-- C1, amended, at a concrete input: a seven-day snippet inserted at time `1000`
gets key `4` and is read back at time `1500`, after another insert and a
`Latest`. -/
theorem insert_get_round_trip_witness :
    sampleInterval "7" = some 7 ∧ (0 : Int) < 7 ∧
    wrapDateAdd sampleServer.now 7 = some (sampleServer.now + days 7) ∧
    (SnippetModel.mk (mysql sampleInterval wrapDateAdd)).Insert sampleServer
        "title" "content" "7"
      = (sampleServer.insert "title" "content" (1000 + days 7), (4, none)) ∧
    (runOps ⟨mysql sampleInterval wrapDateAdd⟩
        (sampleServer.insert "title" "content" (1000 + days 7))
        [.Insert "other" "text" "1", .Latest, .tick 1500]).now = 1500 ∧
    ((SnippetModel.mk (mysql sampleInterval wrapDateAdd)).Get
        (runOps ⟨mysql sampleInterval wrapDateAdd⟩
          (sampleServer.insert "title" "content" (1000 + days 7))
          [.Insert "other" "text" "1", .Latest, .tick 1500]) 4).2 =
      (some { ID := 4, Title := "title", Content := "content",
              Created := 1000, Expires := 1000 + days 7 }, none) :=
  have hadd : wrapDateAdd sampleServer.now 7 = some (sampleServer.now + days 7) :=
    wrapDateAdd_exact 1000 7 (by decide) (by decide)
  have hins : (SnippetModel.mk (mysql sampleInterval wrapDateAdd)).Insert sampleServer
        "title" "content" "7"
      = (sampleServer.insert "title" "content" (1000 + days 7), (4, none)) := by
    rw [mysql_Insert]
    simp only [sampleInterval, hadd]
    rfl
  ⟨rfl, by decide, hadd, hins, by decide,
    insert_get_round_trip sampleInterval wrapDateAdd sampleServer
      (sampleServer.insert "title" "content" (1000 + days 7))
      "title" "content" "7" 7 4 [.Insert "other" "text" "1", .Latest, .tick 1500]
      rfl (by decide) hadd hins (by decide) (by decide)⟩

/-- C10 does not hold where the date arithmetic overflows.  On the sample
server (clock `1000`) with the wrapping date arithmetic, an insert for
`-4000000` days succeeds with key `4` and stores the expiry `4888138400`, which
is after the creation time `1000`; `Get(4)` at the time of the insert returns
the snippet, and `Latest` returns it first. -/
theorem insert_nonpositive_days_counterexample :
    sampleInterval "-4000000" = some (-4000000) ∧ (-4000000 : Int) ≤ 0 ∧
    (SnippetModel.mk (mysql sampleInterval wrapDateAdd)).Insert sampleServer
        "title" "content" "-4000000"
      = (sampleServer.insert "title" "content" 4888138400, (4, none)) ∧
    (sampleServer.insert "title" "content" 4888138400).rows
      = sampleServer.rows ++ [⟨4, "title", "content", 1000, 4888138400⟩] ∧
    ((SnippetModel.mk (mysql sampleInterval wrapDateAdd)).Get
        (sampleServer.insert "title" "content" 4888138400) 4).2
      = (some { ID := 4, Title := "title", Content := "content",
                Created := 1000, Expires := 4888138400 }, none) ∧
    ((SnippetModel.mk (mysql sampleInterval wrapDateAdd)).Latest
        (sampleServer.insert "title" "content" 4888138400)).2
      = (some [{ ID := 4, Title := "title", Content := "content",
                 Created := 1000, Expires := 4888138400 },
               { ID := 2, Title := "b", Content := "y", Created := 300, Expires := 5000 }],
          none) := by
  have hadd : wrapDateAdd sampleServer.now (-4000000) = some 4888138400 := by decide
  refine ⟨rfl, by decide, ?_, rfl, ?_, ?_⟩
  · rw [mysql_Insert]
    simp only [sampleInterval, hadd]
    rfl
  · rw [mysql_Get]
    decide
  · rw [mysql_Latest]
    decide

/-- C10, amended, at a concrete input: an insert with the interval `-1` on the
sample server. -/
theorem insert_nonpositive_days_witness :
    sampleInterval "-1" = some (-1) ∧ (-1 : Int) ≤ 0 ∧
    wrapDateAdd sampleServer.now (-1) = some (sampleServer.now + days (-1)) ∧
    ∃ s1 id row,
      (SnippetModel.mk (mysql sampleInterval wrapDateAdd)).Insert sampleServer
          "title" "content" "-1"
        = (s1, (id, none)) ∧
      (∀ r ∈ sampleServer.rows, r.id ≠ id) ∧
      s1.rows = sampleServer.rows ++ [row] ∧ row.id = id ∧ row.expires ≤ row.created ∧
      ∀ ops, sampleServer.now ≤ (runOps ⟨mysql sampleInterval wrapDateAdd⟩ s1 ops).now →
        ((SnippetModel.mk (mysql sampleInterval wrapDateAdd)).Get
            (runOps ⟨mysql sampleInterval wrapDateAdd⟩ s1 ops) id).2
          = (none, some models.ErrNoRecord) ∧
        ∀ snippets,
          ((SnippetModel.mk (mysql sampleInterval wrapDateAdd)).Latest
              (runOps ⟨mysql sampleInterval wrapDateAdd⟩ s1 ops)).2.1
            = some snippets →
          ∀ x ∈ snippets, x.ID ≠ id :=
  ⟨rfl, by decide, wrapDateAdd_exact 1000 (-1) (by decide) (by decide),
    insert_nonpositive_days sampleInterval wrapDateAdd sampleServer "title" "content" "-1"
      (-1) rfl (by decide) (wrapDateAdd_exact 1000 (-1) (by decide) (by decide))⟩

/-- C9 at a concrete input: a table whose two rows are expired, one of them at
this very second. -/
theorem latest_no_visible_witness :
    (∀ r ∈ expiredServer.rows, r.expires ≤ expiredServer.now) ∧
    ((SnippetModel.mk (mysql sampleInterval wrapDateAdd)).Latest expiredServer).2 = (some [], none) ∧
    ((SnippetModel.mk (mysql sampleInterval wrapDateAdd)).Latest expiredServer).2.2
      ≠ some models.ErrNoRecord :=
  ⟨by decide, latest_no_visible sampleInterval wrapDateAdd expiredServer (by decide)⟩

/-- On the sample server `Latest` returns row 2 alone: row 1 is expired and row 3
expires at the very second of the query. -/
theorem latest_sampleServer :
    ((SnippetModel.mk (mysql sampleInterval wrapDateAdd)).Latest sampleServer).2 =
      (some [{ ID := 2, Title := "b", Content := "y", Created := 300, Expires := 5000 }],
        none) := by
  rw [mysql_Latest]
  decide

/-- On the sample server `Get(3)` finds nothing at the second at which row 3
expires, and `Get(2)` finds row 2. -/
theorem get_sampleServer :
    ((SnippetModel.mk (mysql sampleInterval wrapDateAdd)).Get sampleServer 3).2
      = (none, some models.ErrNoRecord) ∧
    ((SnippetModel.mk (mysql sampleInterval wrapDateAdd)).Get sampleServer 2).2
      = (some { ID := 2, Title := "b", Content := "y", Created := 300, Expires := 5000 },
          none) := by
  rw [mysql_Get, mysql_Get]
  decide

/-- C2 at a concrete input: on the sample server row 3 expires at the very
second of the query, so `Get(3)` finds nothing, and so does `Get(7)`, a key
that is not stored. -/
theorem get_after_expiry_witness :
    ((SnippetModel.mk (mysql sampleInterval wrapDateAdd)).Get sampleServer 3).2
      = (none, some models.ErrNoRecord) ∧
    ((SnippetModel.mk (mysql sampleInterval wrapDateAdd)).Get sampleServer 7).2
      = (none, some models.ErrNoRecord) ∧
    ((SnippetModel.mk (mysql sampleInterval wrapDateAdd)).Get sampleServer 2).2.2 = none :=
  ⟨(get_after_expiry sampleInterval wrapDateAdd sampleServer 3).1 (by decide),
    (get_after_expiry sampleInterval wrapDateAdd sampleServer 7).1 (by decide),
    (get_after_expiry sampleInterval wrapDateAdd sampleServer 2).2.mpr
      ⟨⟨2, "b", "y", 300, 5000⟩, by decide, rfl, by decide⟩⟩

/-- C3 at concrete inputs: an error wrapping `sql.ErrNoRows` becomes
`models.ErrNoRecord`, another error is returned as it is. -/
theorem get_translates_one_error_witness :
    ((SnippetModel.mk flakyDB).Get () 2).2 = (none, some models.ErrNoRecord) ∧
    ((SnippetModel.mk flakyDB).Get () 3).2 = (none, some (.other "invalid connection")) :=
  ⟨(get_translates_one_error ⟨flakyDB⟩ () 2).1 _ rfl (by decide),
    (get_translates_one_error ⟨flakyDB⟩ () 3).2.1 _ rfl (by decide)⟩

/-- C4 at a concrete input: of the twelve unexpired rows of the busy server the
ten created last are returned, latest first. -/
theorem latest_ten_unexpired_witness :
    (((SnippetModel.mk (mysql sampleInterval wrapDateAdd)).Latest busyServer).2.1.map
        (fun l => l.map (fun x => (x.ID, x.Created)))) =
      some [(4, 130), (10, 120), (1, 110), (12, 100), (7, 90), (3, 70), (9, 70), (13, 60),
            (2, 50), (11, 30)] ∧
    ∃ (snippets : List Snippet) (sorted : List Row),
      ((SnippetModel.mk (mysql sampleInterval wrapDateAdd)).Latest busyServer).2 = (some snippets, none) ∧
      snippets.length ≤ 10 ∧
      (∀ x ∈ snippets, ∃ r ∈ busyServer.rows, busyServer.now < r.expires ∧ x = scan r) ∧
      snippets.Pairwise (fun a b => b.Created ≤ a.Created) ∧
      sorted.Perm (busyServer.rows.filter (fun r => decide (busyServer.now < r.expires))) ∧
      sorted.Pairwise (fun a b => b.created ≤ a.created) ∧
      snippets = (sorted.take
        (min 10 (busyServer.rows.filter
          (fun r => decide (busyServer.now < r.expires))).length)).map scan ∧
      (∀ r ∈ busyServer.rows, busyServer.now < r.expires → scan r ∉ snippets →
        ∀ x ∈ snippets, r.created ≤ x.Created) :=
  ⟨by rw [mysql_Latest]; decide, latest_ten_unexpired sampleInterval wrapDateAdd busyServer⟩

/-- C5 at a concrete input: after an insert, two reads, a change of the clock and
an insert that the server rejects, the table is the old rows followed by the
one new row. -/
theorem no_update_or_delete_witness :
    (runOps ⟨mysql sampleInterval wrapDateAdd⟩ sampleServer
        [.Insert "t" "c" "7", .Get 2, .tick 99999999, .Latest, .Insert "t" "c" "soon"]).rows
      = sampleServer.rows ++ [⟨4, "t", "c", 1000, 1000 + days 7⟩] ∧
    sampleServer.rows <+: (runOps ⟨mysql sampleInterval wrapDateAdd⟩ sampleServer
        [.Insert "t" "c" "7", .Get 2, .tick 99999999, .Latest, .Insert "t" "c" "soon"]).rows :=
  ⟨by decide, (no_update_or_delete sampleInterval wrapDateAdd sampleServer).2.2.2 _⟩

/-- C6 at concrete inputs: the three ways `Insert` can end. -/
theorem insert_passes_driver_errors_witness :
    ((SnippetModel.mk flakyDB).Insert () "t" "c" "365").2
      = (0, some (.other "invalid connection")) ∧
    ((SnippetModel.mk flakyDB).Insert () "t" "c" "1").2 = (0, some (.other "no insert id")) ∧
    ((SnippetModel.mk flakyDB).Insert () "t" "c" "7").2 = (42, none) :=
  ⟨(insert_passes_driver_errors ⟨flakyDB⟩ () "t" "c" "365").2.1 _ rfl,
    (insert_passes_driver_errors ⟨flakyDB⟩ () "t" "c" "1").2.2.1 _ _ rfl rfl,
    (insert_passes_driver_errors ⟨flakyDB⟩ () "t" "c" "7").2.2.2 _ _ rfl rfl⟩

/-- C7 at concrete inputs: a database that does not answer the ping, and a
template cache that cannot be built. -/
theorem startup_failures_fatal_witness :
    openDB sampleEnv "down" = (none, some (.other "connection refused")) ∧
    main sampleEnv ⟨":4000", "./ui/static/", "down"⟩
      = [.Fatal (.other "connection refused")] ∧
    openDB sampleEnv "web:pass@/snippetbox?parseTime=true"
      = (some "web:pass@/snippetbox?parseTime=true", none) ∧
    main sampleEnv ⟨":4000", "./ui/static/", "web:pass@/snippetbox?parseTime=true"⟩
      = [.Fatal (.other "pattern matches no files")] :=
  ⟨(startup_failures_fatal sampleEnv ⟨":4000", "./ui/static/", "down"⟩ "down").2.2.2.1
      "down" _ rfl rfl,
    (startup_failures_fatal sampleEnv ⟨":4000", "./ui/static/", "down"⟩ "down").2.2.2.2.1
      _ rfl,
    ((startup_failures_fatal sampleEnv ⟨":4000", "./ui/static/", "down"⟩
      "web:pass@/snippetbox?parseTime=true").1 _).mpr ⟨rfl, rfl⟩,
    (startup_failures_fatal sampleEnv
      ⟨":4000", "./ui/static/", "web:pass@/snippetbox?parseTime=true"⟩ "").2.2.2.2.2
      _ rfl rfl⟩

/-- C8 at concrete inputs: a scan that fails on the second of three rows, and an
iteration that ends with an error after two rows. -/
theorem latest_all_or_nothing_witness :
    ((SnippetModel.mk flakyDB).Latest ()).2 = (none, some (.other "unsupported Scan")) ∧
    ((SnippetModel.mk brokenDB).Latest ()).2 = (none, some (.other "unexpected EOF")) :=
  ⟨(latest_all_or_nothing ⟨flakyDB⟩ ()).2.1 _ [⟨1, "a", "x", 100, 900⟩] _
      [.ok ⟨2, "b", "y", 300, 5000⟩] rfl rfl,
    (latest_all_or_nothing ⟨brokenDB⟩ ()).2.2.1 _
      [⟨1, "a", "x", 100, 900⟩, ⟨2, "b", "y", 300, 5000⟩] _ rfl rfl rfl⟩

end Snippetbox
